import Mathlib

/-!
Shallow embedding of `thumbnail.py` from the video-thumbnail-maker
repository, together with theorems settling the frozen claims about it.

The program builds a contact-sheet PNG for a video: a metadata header,
a grid of `row × col` sampled frames, and a logo overlay.  The pipeline
(`create_thumbnail`) is a Python generator; consuming it executes, in
order: open container, format metadata, measure the label text box,
create the canvas, draw the two text columns, draw the logo, sample the
frame indices, then for each sampled frame seek/decode/resize/paste and
yield a progress fraction, and finally save the PNG.

External collaborators (PyAV decoding, PIL drawing, the standard
library PRNG, font measurement) are modelled by oracles/parameters;
everything computed by `thumbnail.py` itself is translated directly.
-/

namespace Thumbnail

/-- Models the output stream of the standard library PRNG after
`random.seed(s)`: a fixed deterministic function of the seed `s` and the
draw counter.  The exact values are irrelevant to every claim; what
matters is that seeding makes the stream a function of the seed alone.
The concrete formula is an arbitrary stand-in for the Mersenne Twister. -/
def seededStream (s : ℕ) : ℕ → ℕ :=
  fun i => (s * 69069 + i * 362437 + 1) % 4294967296

/-- Models `random.sample`'s selection loop driven by a stream `g` of raw
random numbers: at step `i`, `randbelow(len(pool))` is modelled as
`g i % pool.length`, the chosen element is removed from the active pool
(CPython's partial Fisher–Yates overwrites the chosen slot with the last
active element; removing the chosen index keeps the same residual pool
as a multiset, which is what the sampling contract depends on). -/
def sampleAux (g : ℕ → ℕ) : ℕ → ℕ → List ℕ → List ℕ
  | _, 0, _ => []
  | i, k + 1, pool =>
      let j := g i % pool.length
      pool.getD j 0 :: sampleAux g (i + 1) k (pool.eraseIdx j)

/-- Models `random.sample(population, k)`: raises `ValueError` (here
`none`) unless `0 ≤ k ≤ len(population)`, otherwise returns `k` chosen
elements. -/
def sample (g : ℕ → ℕ) (population : List ℕ) (k : ℕ) : Option (List ℕ) :=
  if k ≤ population.length then some (sampleAux g 0 k population) else none

/-- Models `sorted(random.sample(range(723, total_frames - 723), k))`
from line 97 of `thumbnail.py`.  The population `range(723, F - 723)`
has `max(0, F - 1446)` elements, which is the truncated subtraction
`F - 1446` on `ℕ`. -/
def sampleFrames (g : ℕ → ℕ) (totalFrames k : ℕ) : Option (List ℕ) :=
  (sample g (List.range' 723 (totalFrames - 1446)) k).map
    (List.insertionSort (· ≤ ·))

/-- Models lines 95–97 of `thumbnail.py`: when `shuffle` is false the
global PRNG is reseeded with the constant 23, otherwise the ambient
(per-run) stream is used. -/
def selectFrames (shuffle : Bool) (ambient : ℕ → ℕ) (totalFrames k : ℕ) :
    Option (List ℕ) :=
  sampleFrames (if shuffle then ambient else seededStream 23) totalFrames k

theorem length_sampleAux (g : ℕ → ℕ) :
    ∀ (k i : ℕ) (pool : List ℕ), (sampleAux g i k pool).length = k
  | 0, _, _ => rfl
  | k + 1, i, pool => by
      simp [sampleAux, length_sampleAux g k]

theorem getD_not_mem_eraseIdx (l : List ℕ) (j : ℕ) (hj : j < l.length)
    (hnd : l.Nodup) : l.getD j 0 ∉ l.eraseIdx j := by
  have hdecomp : l = l.take j ++ l.getD j 0 :: l.drop (j + 1) := by
    rw [List.getD_eq_getElem _ _ hj]
    conv_lhs => rw [← List.take_append_drop j l]
    rw [List.drop_eq_getElem_cons hj]
  rw [List.eraseIdx_eq_take_drop_succ]
  intro hmem
  rw [hdecomp] at hnd
  rcases List.mem_append.mp hmem with h | h
  · exact (List.disjoint_of_nodup_append hnd) h (List.mem_cons_self _ _)
  · exact ((List.nodup_append.mp hnd).2.1.not_mem) h

theorem sampleAux_mem_nodup (g : ℕ → ℕ) :
    ∀ (k i : ℕ) (pool : List ℕ), k ≤ pool.length → pool.Nodup →
      (∀ a ∈ sampleAux g i k pool, a ∈ pool) ∧ (sampleAux g i k pool).Nodup
  | 0, _, _, _, _ => by simp [sampleAux]
  | k + 1, i, pool, hk, hnd => by
      have hpos : 0 < pool.length := lt_of_lt_of_le (Nat.succ_pos k) hk
      have hj : g i % pool.length < pool.length := Nat.mod_lt _ hpos
      have hlen : (pool.eraseIdx (g i % pool.length)).length = pool.length - 1 :=
        List.length_eraseIdx_of_lt hj
      have hk2 : k ≤ (pool.eraseIdx (g i % pool.length)).length := by
        omega
      have hnd2 : (pool.eraseIdx (g i % pool.length)).Nodup :=
        hnd.sublist (List.eraseIdx_sublist pool (g i % pool.length))
      obtain ⟨ihmem, ihnd⟩ := sampleAux_mem_nodup g k (i + 1)
        (pool.eraseIdx (g i % pool.length)) hk2 hnd2
      constructor
      · intro a ha
        rw [sampleAux] at ha
        rcases List.mem_cons.mp ha with h | h
        · rw [h, List.getD_eq_getElem _ _ hj]
          exact List.getElem_mem hj
        · exact (List.eraseIdx_sublist pool (g i % pool.length)).mem (ihmem a h)
      · rw [sampleAux]
        refine List.nodup_cons.mpr ⟨fun hmem => ?_, ihnd⟩
        exact getD_not_mem_eraseIdx pool (g i % pool.length) hj hnd (ihmem _ hmem)

/-- Sampling succeeds exactly when the requested count fits the
population, and then yields a sorted duplicate-free list of population
members of the requested length. -/
theorem sampleFrames_spec (g : ℕ → ℕ) (F k : ℕ) (h : k ≤ F - 1446) :
    ∃ l, sampleFrames g F k = some l ∧ l.length = k ∧ l.Nodup ∧
      List.Sorted (· ≤ ·) l ∧ ∀ a ∈ l, 723 ≤ a ∧ a < 723 + (F - 1446) := by
  have hlen : (List.range' 723 (F - 1446)).length = F - 1446 :=
    List.length_range' _ _ _
  have hk : k ≤ (List.range' 723 (F - 1446)).length := by rw [hlen]; exact h
  have hsome : sample g (List.range' 723 (F - 1446)) k =
      some (sampleAux g 0 k (List.range' 723 (F - 1446))) := by
    rw [sample, if_pos hk]
  obtain ⟨hmem, hnd⟩ := sampleAux_mem_nodup g k 0 (List.range' 723 (F - 1446))
    hk (List.nodup_range' _ _)
  refine ⟨List.insertionSort (· ≤ ·) (sampleAux g 0 k (List.range' 723 (F - 1446))),
    ?_, ?_, ?_, ?_, ?_⟩
  · rw [sampleFrames, hsome, Option.map_some']
  · rw [(List.perm_insertionSort (· ≤ ·) _).length_eq]
    exact length_sampleAux g k 0 _
  · exact (List.perm_insertionSort (· ≤ ·) _).nodup_iff.mpr hnd
  · exact List.sorted_insertionSort (· ≤ ·) _
  · intro a ha
    have := hmem a ((List.perm_insertionSort (· ≤ ·) _).mem_iff.mp ha)
    exact List.mem_range'_1.mp this

/-- The configuration keys of `config.yml` that the claims depend on
(`matrix.row`, `matrix.col`, `matrix.padding`, `matrix.block_width`,
`shuffle`). -/
structure Config where
  row : ℕ
  col : ℕ
  padding : ℕ
  blockWidth : ℕ
  shuffle : Bool
  deriving DecidableEq

/-- The video-stream facts `create_thumbnail` reads: pixel dimensions,
total frame count, and the average frame rate as an exact fraction
`rateNum / rateDen` (PyAV exposes `average_rate` as a `Fraction`). -/
structure VideoStream where
  width : ℕ
  height : ℕ
  frames : ℕ
  rateNum : ℕ
  rateDen : ℕ
  deriving DecidableEq

/-- Line 84: `block_height = int(block_width / video.width * video.height)`.
The Python expression divides and multiplies in floating point and then
truncates; on nonnegative values this is the floor of the exact ratio,
modelled here by natural-number division. -/
def blockHeight (cfg : Config) (v : VideoStream) : ℕ :=
  cfg.blockWidth * v.height / v.width

/-- Line 85: `width = (block_width + padding) * col + padding`. -/
def canvasWidth (cfg : Config) : ℕ :=
  (cfg.blockWidth + cfg.padding) * cfg.col + cfg.padding

/-- Line 86: `height = textbox_height + (block_height + padding) * row`,
where `textboxHeight` is the measured height of the label column
(external font measurement, passed in as a parameter). -/
def canvasHeight (cfg : Config) (v : VideoStream) (textboxHeight : ℕ) : ℕ :=
  textboxHeight + (blockHeight cfg v + cfg.padding) * cfg.row

/-- Line 101: `x = padding + (padding + block_width) * (idx % col)`. -/
def pasteX (cfg : Config) (idx : ℕ) : ℕ :=
  cfg.padding + (cfg.padding + cfg.blockWidth) * (idx % cfg.col)

/-- Line 102: `y = textbox_height + (padding + block_height) * (idx // col)`. -/
def pasteY (cfg : Config) (v : VideoStream) (textboxHeight idx : ℕ) : ℕ :=
  textboxHeight + (cfg.padding + blockHeight cfg v) * (idx / cfg.col)

/-- Line 99: `container.seek(int(frame / video.average_rate) * 1000000)`.
`frame / average_rate` is the exact rational `frame * rateDen / rateNum`;
`int` truncates it to whole seconds, and only then is it scaled to
microseconds. -/
def seekTarget (v : VideoStream) (frame : ℕ) : ℕ :=
  frame * v.rateDen / v.rateNum * 1000000

/-- Observable effects of `create_thumbnail`, in program order. -/
inductive Event
  | createCanvas (w h : ℕ)
  | drawText (x y : ℕ)
  | drawLogo
  | seek (target : ℕ)
  | decodeFrame (frame : ℕ)
  | resizeFrame (w h : ℕ)
  | paste (x y : ℕ)
  | yieldProgress (p : ℚ)
  | savePng
  deriving DecidableEq

/-- Lines 98–107, the render loop of `create_thumbnail`: for the frame
at enumeration index `idx`, seek, decode (`decodeOk` is the oracle
saying whether the external decoder succeeds on that frame), resize to
`(block_width, block_height)`, paste at the grid cell, and yield
`(idx + 1) / (row * col)`; after the last frame, save the PNG.  A decode
failure aborts the generator at that point: the events already emitted
stand, nothing later (in particular no save) happens. -/
def renderLoop (cfg : Config) (v : VideoStream) (textboxHeight : ℕ)
    (decodeOk : ℕ → Bool) : ℕ → List ℕ → List Event × Bool
  | _, [] => ([Event.savePng], true)
  | idx, f :: rest =>
      if decodeOk f then
        let r := renderLoop cfg v textboxHeight decodeOk (idx + 1) rest
        (Event.seek (seekTarget v f) :: Event.decodeFrame f ::
          Event.resizeFrame cfg.blockWidth (blockHeight cfg v) ::
          Event.paste (pasteX cfg idx) (pasteY cfg v textboxHeight idx) ::
          Event.yieldProgress (((idx + 1 : ℕ) : ℚ) / ((cfg.row * cfg.col : ℕ) : ℚ)) ::
          r.1, r.2)
      else ([Event.seek (seekTarget v f)], false)

/-- The body of `create_thumbnail` (lines 70–107) as an event trace plus
a success flag.  `textboxWidth`/`textboxHeight` are the values measured
by `get_textbox_size` (external font metrics); `ambient` is the
pre-existing state of the global PRNG; `decodeOk` is the decoder oracle.
The canvas is created and the text and logo are drawn before the frame
indices are sampled; if sampling fails (`ValueError` from
`random.sample`), the run ends there. -/
def createThumbnail (cfg : Config) (v : VideoStream)
    (textboxWidth textboxHeight : ℕ) (ambient : ℕ → ℕ)
    (decodeOk : ℕ → Bool) : List Event × Bool :=
  let header := [Event.createCanvas (canvasWidth cfg) (canvasHeight cfg v textboxHeight),
                 Event.drawText 10 10,
                 Event.drawText textboxWidth 10,
                 Event.drawLogo]
  match selectFrames cfg.shuffle ambient v.frames (cfg.row * cfg.col) with
  | none => (header, false)
  | some frames =>
      let r := renderLoop cfg v textboxHeight decodeOk 0 frames
      (header ++ r.1, r.2)

/-- Paste events of a trace, in order. -/
def pastesOf (t : List Event) : List (ℕ × ℕ) :=
  t.filterMap fun e =>
    match e with
    | Event.paste x y => some (x, y)
    | _ => none

/-- Seek targets of a trace, in order. -/
def seeksOf (t : List Event) : List ℕ :=
  t.filterMap fun e =>
    match e with
    | Event.seek ts => some ts
    | _ => none

/-- Resize dimensions of a trace, in order. -/
def resizesOf (t : List Event) : List (ℕ × ℕ) :=
  t.filterMap fun e =>
    match e with
    | Event.resizeFrame w h => some (w, h)
    | _ => none

/-- Progress fractions yielded by a trace, in order. -/
def progressOf (t : List Event) : List ℚ :=
  t.filterMap fun e =>
    match e with
    | Event.yieldProgress p => some p
    | _ => none

/-- A successful `selectFrames` returns exactly `k` indices. -/
theorem selectFrames_length (shuffle : Bool) (ambient : ℕ → ℕ)
    (F k : ℕ) (l : List ℕ) (h : selectFrames shuffle ambient F k = some l) :
    l.length = k := by
  rw [selectFrames, sampleFrames, sample] at h
  by_cases hk : k ≤ (List.range' 723 (F - 1446)).length
  · rw [if_pos hk, Option.map_some'] at h
    cases h
    rw [(List.perm_insertionSort (· ≤ ·) _).length_eq]
    exact length_sampleAux _ k 0 _
  · rw [if_neg hk] at h
    cases h

theorem renderLoop_cons_ok (cfg : Config) (v : VideoStream) (tbH : ℕ)
    (f i : ℕ) (rest : List ℕ) :
    renderLoop cfg v tbH (fun _ => true) i (f :: rest) =
      (Event.seek (seekTarget v f) :: Event.decodeFrame f ::
        Event.resizeFrame cfg.blockWidth (blockHeight cfg v) ::
        Event.paste (pasteX cfg i) (pasteY cfg v tbH i) ::
        Event.yieldProgress (((i + 1 : ℕ) : ℚ) / ((cfg.row * cfg.col : ℕ) : ℚ)) ::
        (renderLoop cfg v tbH (fun _ => true) (i + 1) rest).1,
        (renderLoop cfg v tbH (fun _ => true) (i + 1) rest).2) := by
  simp [renderLoop]

/-- Full characterisation of an all-decodes-succeed run of the render
loop: it succeeds and emits exactly one seek, resize, paste and progress
yield per sampled frame, with the positions and values of lines 99–106. -/
theorem renderLoop_ok (cfg : Config) (v : VideoStream) (tbH : ℕ) :
    ∀ (fs : List ℕ) (i : ℕ),
      (renderLoop cfg v tbH (fun _ => true) i fs).2 = true ∧
      pastesOf (renderLoop cfg v tbH (fun _ => true) i fs).1 =
        (List.range fs.length).map
          (fun k => (pasteX cfg (i + k), pasteY cfg v tbH (i + k))) ∧
      resizesOf (renderLoop cfg v tbH (fun _ => true) i fs).1 =
        List.replicate fs.length (cfg.blockWidth, blockHeight cfg v) ∧
      seeksOf (renderLoop cfg v tbH (fun _ => true) i fs).1 =
        fs.map (seekTarget v) ∧
      progressOf (renderLoop cfg v tbH (fun _ => true) i fs).1 =
        (List.range fs.length).map
          (fun k => ((i + k + 1 : ℕ) : ℚ) / ((cfg.row * cfg.col : ℕ) : ℚ))
  | [], i => by
      simp [renderLoop, pastesOf, resizesOf, seeksOf, progressOf]
  | f :: rest, i => by
      obtain ⟨ih2, ihp, ihr, ihs, ihy⟩ := renderLoop_ok cfg v tbH rest (i + 1)
      rw [renderLoop_cons_ok]
      refine ⟨ih2, ?_, ?_, ?_, ?_⟩
      · simp only [pastesOf, List.filterMap_cons] at ihp ⊢
        rw [ihp, List.length_cons, List.range_succ_eq_map, List.map_cons,
          List.map_map]
        refine congrArg₂ _ (by simp) (List.map_congr_left fun k _ => ?_)
        simp [Function.comp, Nat.succ_eq_add_one]
        constructor
        · exact congrArg (pasteX cfg) (by omega)
        · exact congrArg (pasteY cfg v tbH) (by omega)
      · simp only [resizesOf, List.filterMap_cons] at ihr ⊢
        rw [ihr, List.length_cons, List.replicate_succ]
      · simp only [seeksOf, List.filterMap_cons] at ihs ⊢
        rw [ihs, List.map_cons]
      · simp only [progressOf, List.filterMap_cons] at ihy ⊢
        rw [ihy, List.length_cons, List.range_succ_eq_map, List.map_cons,
          List.map_map]
        refine congrArg₂ _ (by simp) (List.map_congr_left fun k _ => ?_)
        simp [Function.comp, Nat.succ_eq_add_one]
        ring_nf

/-- The PNG-save event occurs in the loop's trace exactly when the loop
completed successfully. -/
theorem renderLoop_save_iff (cfg : Config) (v : VideoStream) (tbH : ℕ)
    (dec : ℕ → Bool) :
    ∀ (fs : List ℕ) (i : ℕ),
      (Event.savePng ∈ (renderLoop cfg v tbH dec i fs).1 ↔
        (renderLoop cfg v tbH dec i fs).2 = true)
  | [], i => by simp [renderLoop]
  | f :: rest, i => by
      by_cases hdec : dec f
      · have ih := renderLoop_save_iff cfg v tbH dec rest (i + 1)
        simp [renderLoop, hdec, ih]
      · simp [renderLoop, hdec]

/-- A successful render loop's trace is some save-free event list
containing one paste per frame, followed by the single save event. -/
theorem renderLoop_save_last (cfg : Config) (v : VideoStream) (tbH : ℕ)
    (dec : ℕ → Bool) :
    ∀ (fs : List ℕ) (i : ℕ), (renderLoop cfg v tbH dec i fs).2 = true →
      ∃ pre, (renderLoop cfg v tbH dec i fs).1 = pre ++ [Event.savePng] ∧
        Event.savePng ∉ pre ∧ (pastesOf pre).length = fs.length
  | [], i, _ => ⟨[], by simp [renderLoop, pastesOf]⟩
  | f :: rest, i, hok => by
      by_cases hdec : dec f
      · have hok2 : (renderLoop cfg v tbH dec (i + 1) rest).2 = true := by
          simp [renderLoop, hdec] at hok
          exact hok
        obtain ⟨pre, hpre, hmem, hcount⟩ :=
          renderLoop_save_last cfg v tbH dec rest (i + 1) hok2
        refine ⟨Event.seek (seekTarget v f) :: Event.decodeFrame f ::
          Event.resizeFrame cfg.blockWidth (blockHeight cfg v) ::
          Event.paste (pasteX cfg i) (pasteY cfg v tbH i) ::
          Event.yieldProgress (((i + 1 : ℕ) : ℚ) / ((cfg.row * cfg.col : ℕ) : ℚ)) ::
          pre, ?_, ?_, ?_⟩
        · simp [renderLoop, hdec, hpre]
        · simp [hmem]
        · simp [pastesOf, List.filterMap_cons] at hcount ⊢
          omega
      · exfalso
        simp [renderLoop, hdec] at hok

/-- C1: for every frame count `F` and every grid with `row, col ≥ 1`
such that `F - 1446 ≥ row * col`, the frame sampler produces exactly
`row * col` strictly increasing (hence distinct) indices, each in
`[723, F - 723)`. -/
theorem C1_sampler_spec (g : ℕ → ℕ) (F row col : ℕ)
    (hrow : 1 ≤ row) (hcol : 1 ≤ col) (hF : row * col ≤ F - 1446) :
    ∃ l, sampleFrames g F (row * col) = some l ∧ l.length = row * col ∧
      List.Sorted (· < ·) l ∧ ∀ a ∈ l, 723 ≤ a ∧ a < F - 723 := by
  obtain ⟨l, hsome, hlen, hnd, hsorted, hmem⟩ :=
    sampleFrames_spec g F (row * col) hF
  have h1 : 1 ≤ row * col := le_trans hrow (Nat.le_mul_of_pos_right row hcol)
  refine ⟨l, hsome, hlen, hsorted.lt_of_le hnd, fun a ha => ?_⟩
  obtain ⟨hlo, hhi⟩ := hmem a ha
  omega

/-- C1 witness: a concrete run with 1450 frames and a 2×2 grid. -/
theorem C1_sampler_spec_w :
    ((1 : ℕ) ≤ 2 ∧ (1 : ℕ) ≤ 2 ∧ 2 * 2 ≤ 1450 - 1446) ∧
      ∃ l, sampleFrames (fun _ => 0) 1450 (2 * 2) = some l ∧
        l.length = 2 * 2 ∧ List.Sorted (· < ·) l ∧
        ∀ a ∈ l, 723 ≤ a ∧ a < 1450 - 723 :=
  ⟨⟨by decide, by decide, by decide⟩,
    C1_sampler_spec (fun _ => 0) 1450 2 2 (by decide) (by decide) (by decide)⟩

/-- C2: with `shuffle` false the sampler reseeds with the constant 23,
so the ambient PRNG state of a run is irrelevant: two runs with the same
total frame count and the same `row * col` grid size select the
identical frame index set. -/
theorem C2_shuffle_false_deterministic (g1 g2 : ℕ → ℕ) (F r1 c1 r2 c2 : ℕ)
    (h : r1 * c1 = r2 * c2) :
    selectFrames false g1 F (r1 * c1) = selectFrames false g2 F (r2 * c2) := by
  rw [h]
  rfl

/-- C2 witness: two runs with different ambient PRNG states and grids
2×2 and 4×1 of equal size agree. -/
theorem C2_shuffle_false_deterministic_w :
    2 * 2 = 4 * 1 ∧
      selectFrames false (fun _ => 0) 1450 (2 * 2) =
        selectFrames false (fun i => i + 7) 1450 (4 * 1) :=
  ⟨by decide,
    C2_shuffle_false_deterministic (fun _ => 0) (fun i => i + 7) 1450 2 2 4 1
      (by decide)⟩

/-- C3 counterexample: a video with 1000 total frames and a 2×2 grid has
`1000 - 1446 < 4`, and the run does fail — but the canvas-creation event
is already in the trace when it fails, so the failure does not happen
before the canvas is created (`Image.new` on line 87 runs before the
sampling on line 97). -/
theorem C3_canvas_already_created :
    (createThumbnail ⟨2, 2, 10, 120, false⟩ ⟨640, 480, 1000, 30, 1⟩ 200 100
        (fun _ => 0) (fun _ => true)).2 = false ∧
      Event.createCanvas 270 300 ∈
        (createThumbnail ⟨2, 2, 10, 120, false⟩ ⟨640, 480, 1000, 30, 1⟩ 200 100
          (fun _ => 0) (fun _ => true)).1 := by
  decide

/-- C3 amended: a video with `F - 1446 < row * col` fails the run with
the insufficient-frames error before any frame is decoded or pasted and
before the PNG is saved; the canvas itself has however already been
created at that point. -/
theorem C3_insufficient_frames_fails_early (cfg : Config) (v : VideoStream)
    (tbW tbH : ℕ) (ambient : ℕ → ℕ) (dec : ℕ → Bool)
    (h : v.frames - 1446 < cfg.row * cfg.col) :
    (createThumbnail cfg v tbW tbH ambient dec).2 = false ∧
      (∀ x y, Event.paste x y ∉ (createThumbnail cfg v tbW tbH ambient dec).1) ∧
      (∀ f, Event.decodeFrame f ∉ (createThumbnail cfg v tbW tbH ambient dec).1) ∧
      Event.savePng ∉ (createThumbnail cfg v tbW tbH ambient dec).1 ∧
      Event.createCanvas (canvasWidth cfg) (canvasHeight cfg v tbH) ∈
        (createThumbnail cfg v tbW tbH ambient dec).1 := by
  have hlen : ¬ (cfg.row * cfg.col ≤ (List.range' 723 (v.frames - 1446)).length) := by
    rw [List.length_range']
    omega
  have hsel : selectFrames cfg.shuffle ambient v.frames (cfg.row * cfg.col) = none := by
    rw [selectFrames, sampleFrames, sample, if_neg hlen, Option.map_none']
  simp [createThumbnail, hsel]

/-- C3 amended-claim witness at the counterexample's input. -/
theorem C3_insufficient_frames_fails_early_w :
    1000 - 1446 < 2 * 2 ∧
      (createThumbnail ⟨2, 2, 10, 120, false⟩ ⟨640, 480, 1000, 30, 1⟩ 200 100
          (fun _ => 0) (fun _ => true)).2 = false ∧
      Event.savePng ∉
        (createThumbnail ⟨2, 2, 10, 120, false⟩ ⟨640, 480, 1000, 30, 1⟩ 200 100
          (fun _ => 0) (fun _ => true)).1 :=
  ⟨by decide,
    (C3_insufficient_frames_fails_early ⟨2, 2, 10, 120, false⟩
      ⟨640, 480, 1000, 30, 1⟩ 200 100 (fun _ => 0) (fun _ => true) (by decide)).1,
    (C3_insufficient_frames_fails_early ⟨2, 2, 10, 120, false⟩
      ⟨640, 480, 1000, 30, 1⟩ 200 100 (fun _ => 0) (fun _ => true) (by decide)).2.2.2.1⟩

/-- C4: the canvas created by the pipeline — always its first observable
event, whether or not the run later fails — has width
`(block_width + padding) * col + padding` and height
`textbox_height + (block_height + padding) * row` where
`block_height = block_width * video_height / video_width`. -/
theorem C4_canvas_dimensions (cfg : Config) (v : VideoStream) (tbW tbH : ℕ)
    (ambient : ℕ → ℕ) (dec : ℕ → Bool) :
    (createThumbnail cfg v tbW tbH ambient dec).1.head? =
      some (Event.createCanvas
        ((cfg.blockWidth + cfg.padding) * cfg.col + cfg.padding)
        (tbH + (cfg.blockWidth * v.height / v.width + cfg.padding) * cfg.row)) := by
  cases hsel : selectFrames cfg.shuffle ambient v.frames (cfg.row * cfg.col) <;>
    simp [createThumbnail, hsel, canvasWidth, canvasHeight, blockHeight]

/-- C5: in a run whose sampling succeeded and whose decodes all succeed,
the pipeline emits one resize to `(block_width, block_height)` and one
paste per sampled-frame position `idx < row * col`, the idx-th paste at
`x = padding + (padding + block_width) * (idx % col)` and
`y = textbox_height + (padding + block_height) * (idx / col)`, in
row-major order. -/
theorem C5_paste_layout (cfg : Config) (v : VideoStream) (tbW tbH : ℕ)
    (ambient : ℕ → ℕ) (fs : List ℕ)
    (hsel : selectFrames cfg.shuffle ambient v.frames (cfg.row * cfg.col) = some fs) :
    pastesOf (createThumbnail cfg v tbW tbH ambient (fun _ => true)).1 =
      (List.range (cfg.row * cfg.col)).map
        (fun idx => (cfg.padding + (cfg.padding + cfg.blockWidth) * (idx % cfg.col),
          tbH + (cfg.padding + blockHeight cfg v) * (idx / cfg.col))) ∧
    resizesOf (createThumbnail cfg v tbW tbH ambient (fun _ => true)).1 =
      List.replicate (cfg.row * cfg.col) (cfg.blockWidth, blockHeight cfg v) := by
  obtain ⟨-, hp, hr, -, -⟩ := renderLoop_ok cfg v tbH fs 0
  have hlen := selectFrames_length cfg.shuffle ambient v.frames
    (cfg.row * cfg.col) fs hsel
  have htrace : (createThumbnail cfg v tbW tbH ambient (fun _ => true)).1 =
      [Event.createCanvas (canvasWidth cfg) (canvasHeight cfg v tbH),
       Event.drawText 10 10, Event.drawText tbW 10, Event.drawLogo] ++
      (renderLoop cfg v tbH (fun _ => true) 0 fs).1 := by
    simp [createThumbnail, hsel]
  constructor
  · rw [htrace]
    simp only [pastesOf, List.filterMap_append, List.filterMap_cons,
      List.filterMap_nil, List.nil_append]
    rw [← pastesOf, hp, hlen]
    exact List.map_congr_left fun k _ => by simp [pasteX, pasteY]
  · rw [htrace]
    simp only [resizesOf, List.filterMap_append, List.filterMap_cons,
      List.filterMap_nil, List.nil_append]
    rw [← resizesOf, hr, hlen]

/-- C5 witness: concrete 2×2 run; the paste grid and resize list are the
claimed ones. -/
theorem C5_paste_layout_w :
    selectFrames true (fun _ => 0) 1450 (2 * 2) = some [723, 724, 725, 726] ∧
      pastesOf (createThumbnail ⟨2, 2, 10, 120, true⟩ ⟨640, 480, 1450, 30, 1⟩
          200 100 (fun _ => 0) (fun _ => true)).1 =
        (List.range (2 * 2)).map
          (fun idx => (10 + (10 + 120) * (idx % 2), 100 + (10 + 90) * (idx / 2))) :=
  ⟨by decide,
    (C5_paste_layout ⟨2, 2, 10, 120, true⟩ ⟨640, 480, 1450, 30, 1⟩ 200 100
      (fun _ => 0) [723, 724, 725, 726] (by decide)).1⟩

/-- C6 counterexample: at frame 100 with average rate 30 fps the code
seeks to `int(100 / 30) * 1000000 = 3000000` microseconds, not to
`100 / 30 * 1000000 = 10^7 / 3` microseconds as the claim states. -/
theorem C6_seek_target_not_exact :
    ((seekTarget ⟨640, 480, 100000, 30, 1⟩ 100 : ℕ) : ℚ) ≠
      (100 : ℚ) / ((30 : ℚ) / (1 : ℚ)) * 1000000 := by
  have h : seekTarget ⟨640, 480, 100000, 30, 1⟩ 100 = 3000000 := rfl
  rw [h]
  norm_num

/-- C6 amended: the renderer emits one seek per sampled frame, in order,
and each target is `⌊f / average_frame_rate⌋ * 1000000` — the timestamp
truncated to whole seconds before conversion to microseconds — after
which the next available frame at or after that timestamp is decoded. -/
theorem C6_seek_whole_seconds (cfg : Config) (v : VideoStream) (tbW tbH : ℕ)
    (ambient : ℕ → ℕ) (fs : List ℕ)
    (hsel : selectFrames cfg.shuffle ambient v.frames (cfg.row * cfg.col) = some fs) :
    seeksOf (createThumbnail cfg v tbW tbH ambient (fun _ => true)).1 =
      fs.map (seekTarget v) ∧
    ∀ f : ℕ, seekTarget v f =
      ⌊(f : ℚ) / ((v.rateNum : ℚ) / (v.rateDen : ℚ))⌋₊ * 1000000 := by
  constructor
  · obtain ⟨-, -, -, hs, -⟩ := renderLoop_ok cfg v tbH fs 0
    have htrace : (createThumbnail cfg v tbW tbH ambient (fun _ => true)).1 =
        [Event.createCanvas (canvasWidth cfg) (canvasHeight cfg v tbH),
         Event.drawText 10 10, Event.drawText tbW 10, Event.drawLogo] ++
        (renderLoop cfg v tbH (fun _ => true) 0 fs).1 := by
      simp [createThumbnail, hsel]
    rw [htrace]
    simp only [seeksOf, List.filterMap_append, List.filterMap_cons,
      List.filterMap_nil, List.nil_append]
    rw [← seeksOf, hs]
  · intro f
    rw [seekTarget, div_div_eq_mul_div]
    have hcast : (f : ℚ) * (v.rateDen : ℚ) = ((f * v.rateDen : ℕ) : ℚ) := by
      push_cast
      ring
    rw [hcast, Nat.floor_div_eq_div]

/-- C6 amended-claim witness: concrete run, with the whole-second floor
formula evaluated at frame 100. -/
theorem C6_seek_whole_seconds_w :
    selectFrames true (fun _ => 0) 1450 (2 * 2) = some [723, 724, 725, 726] ∧
      seeksOf (createThumbnail ⟨2, 2, 10, 120, true⟩ ⟨640, 480, 1450, 30, 1⟩
          200 100 (fun _ => 0) (fun _ => true)).1 =
        [723, 724, 725, 726].map (seekTarget ⟨640, 480, 1450, 30, 1⟩) ∧
      seekTarget ⟨640, 480, 1450, 30, 1⟩ 100 =
        ⌊(100 : ℚ) / ((30 : ℚ) / (1 : ℚ))⌋₊ * 1000000 :=
  ⟨by decide,
    (C6_seek_whole_seconds ⟨2, 2, 10, 120, true⟩ ⟨640, 480, 1450, 30, 1⟩ 200 100
      (fun _ => 0) [723, 724, 725, 726] (by decide)).1,
    (C6_seek_whole_seconds ⟨2, 2, 10, 120, true⟩ ⟨640, 480, 1450, 30, 1⟩ 200 100
      (fun _ => 0) [723, 724, 725, 726] (by decide)).2 100⟩

theorem getD_map_range {α : Type} (d : α) (f : ℕ → α) (n idx : ℕ) (h : idx < n) :
    ((List.range n).map f).getD idx d = f idx := by
  rw [List.getD_eq_getElem]
  rotate_left
  · simpa using h
  · simp

/-- C7: the progress sequence of a fully successful run has exactly
`row * col` values, the idx-th equal to `(idx + 1) / (row * col)`; it is
strictly increasing, starts strictly above 0, and ends at exactly 1. -/
theorem C7_progress_spec (cfg : Config) (v : VideoStream) (tbW tbH : ℕ)
    (ambient : ℕ → ℕ) (fs : List ℕ) (hrow : 1 ≤ cfg.row) (hcol : 1 ≤ cfg.col)
    (hsel : selectFrames cfg.shuffle ambient v.frames (cfg.row * cfg.col) = some fs) :
    (progressOf (createThumbnail cfg v tbW tbH ambient (fun _ => true)).1).length =
      cfg.row * cfg.col ∧
    (∀ idx, idx < cfg.row * cfg.col →
      (progressOf (createThumbnail cfg v tbW tbH ambient (fun _ => true)).1).getD idx 0 =
        ((idx + 1 : ℕ) : ℚ) / ((cfg.row * cfg.col : ℕ) : ℚ)) ∧
    List.Sorted (· < ·)
      (progressOf (createThumbnail cfg v tbW tbH ambient (fun _ => true)).1) ∧
    (∀ q, (progressOf (createThumbnail cfg v tbW tbH ambient (fun _ => true)).1).head? =
      some q → 0 < q) ∧
    (progressOf (createThumbnail cfg v tbW tbH ambient (fun _ => true)).1).getLast? =
      some 1 := by
  obtain ⟨-, -, -, -, hy⟩ := renderLoop_ok cfg v tbH fs 0
  have hlen := selectFrames_length cfg.shuffle ambient v.frames
    (cfg.row * cfg.col) fs hsel
  have htrace : (createThumbnail cfg v tbW tbH ambient (fun _ => true)).1 =
      [Event.createCanvas (canvasWidth cfg) (canvasHeight cfg v tbH),
       Event.drawText 10 10, Event.drawText tbW 10, Event.drawLogo] ++
      (renderLoop cfg v tbH (fun _ => true) 0 fs).1 := by
    simp [createThumbnail, hsel]
  have hn : 1 ≤ cfg.row * cfg.col :=
    le_trans hrow (Nat.le_mul_of_pos_right cfg.row hcol)
  have hd : (0 : ℚ) < ((cfg.row * cfg.col : ℕ) : ℚ) := by
    exact_mod_cast hn
  have hprog : progressOf (createThumbnail cfg v tbW tbH ambient (fun _ => true)).1 =
      (List.range (cfg.row * cfg.col)).map
        (fun k => ((k + 1 : ℕ) : ℚ) / ((cfg.row * cfg.col : ℕ) : ℚ)) := by
    rw [htrace]
    simp only [progressOf, List.filterMap_append, List.filterMap_cons,
      List.filterMap_nil, List.nil_append]
    rw [← progressOf, hy, hlen]
    exact List.map_congr_left fun k _ => by norm_num
  obtain ⟨m, hm⟩ : ∃ m, cfg.row * cfg.col = m + 1 := ⟨cfg.row * cfg.col - 1, by omega⟩
  refine ⟨?_, ?_, ?_, ?_, ?_⟩
  · simp [hprog]
  · intro idx hidx
    rw [hprog, getD_map_range _ _ _ _ hidx]
  · rw [hprog]
    refine List.Pairwise.map _ (fun a b hab => ?_) (List.pairwise_lt_range _)
    refine (div_lt_div_iff_of_pos_right hd).mpr ?_
    exact_mod_cast Nat.succ_lt_succ hab
  · intro q hq
    rw [hprog, hm, List.range_succ_eq_map, List.map_cons, List.head?_cons,
      Option.some.injEq] at hq
    rw [← hq]
    positivity
  · rw [hprog, hm, List.range_succ, List.map_append, List.map_cons, List.map_nil,
      List.getLast?_concat, Option.some.injEq, ← hm]
    exact div_self (ne_of_gt hd)

/-- C7 witness: the concrete 2×2 run yields the progress values
1/4, 1/2, 3/4, 1. -/
theorem C7_progress_spec_w :
    ((1 : ℕ) ≤ 2 ∧ (1 : ℕ) ≤ 2) ∧
      List.Sorted (· < ·)
        (progressOf (createThumbnail ⟨2, 2, 10, 120, true⟩ ⟨640, 480, 1450, 30, 1⟩
          200 100 (fun _ => 0) (fun _ => true)).1) ∧
      (progressOf (createThumbnail ⟨2, 2, 10, 120, true⟩ ⟨640, 480, 1450, 30, 1⟩
          200 100 (fun _ => 0) (fun _ => true)).1).getLast? = some 1 :=
  ⟨⟨by decide, by decide⟩,
    (C7_progress_spec ⟨2, 2, 10, 120, true⟩ ⟨640, 480, 1450, 30, 1⟩ 200 100
      (fun _ => 0) [723, 724, 725, 726] (by decide) (by decide) (by decide)).2.2.1,
    (C7_progress_spec ⟨2, 2, 10, 120, true⟩ ⟨640, 480, 1450, 30, 1⟩ 200 100
      (fun _ => 0) [723, 724, 725, 726] (by decide) (by decide) (by decide)).2.2.2.2⟩

theorem pastesOf_header_append (cw ch tw : ℕ) (t : List Event) :
    pastesOf ([Event.createCanvas cw ch, Event.drawText 10 10,
      Event.drawText tw 10, Event.drawLogo] ++ t) = pastesOf t := by
  simp [pastesOf, List.filterMap_cons]

/-- C8: the PNG-save event occurs in the trace exactly when the whole
run succeeds, and in a successful run it is the single last event,
strictly after all `row * col` paste events; a failing run (whether the
sampling fails or a decode fails) never reaches it, so no partial output
is ever written. -/
theorem C8_save_only_after_full_composite (cfg : Config) (v : VideoStream)
    (tbW tbH : ℕ) (ambient : ℕ → ℕ) (dec : ℕ → Bool) :
    (Event.savePng ∈ (createThumbnail cfg v tbW tbH ambient dec).1 ↔
      (createThumbnail cfg v tbW tbH ambient dec).2 = true) ∧
    ((createThumbnail cfg v tbW tbH ambient dec).2 = true →
      ∃ pre, (createThumbnail cfg v tbW tbH ambient dec).1 = pre ++ [Event.savePng] ∧
        Event.savePng ∉ pre ∧ (pastesOf pre).length = cfg.row * cfg.col) := by
  cases hsel : selectFrames cfg.shuffle ambient v.frames (cfg.row * cfg.col) with
  | none =>
      constructor
      · simp [createThumbnail, hsel]
      · intro h
        exfalso
        simp [createThumbnail, hsel] at h
  | some fs =>
      have hlen := selectFrames_length cfg.shuffle ambient v.frames
        (cfg.row * cfg.col) fs hsel
      constructor
      · simp [createThumbnail, hsel, renderLoop_save_iff]
      · intro h
        have hok : (renderLoop cfg v tbH dec 0 fs).2 = true := by
          simpa [createThumbnail, hsel] using h
        obtain ⟨pre, hpre, hmem, hcount⟩ :=
          renderLoop_save_last cfg v tbH dec fs 0 hok
        refine ⟨[Event.createCanvas (canvasWidth cfg) (canvasHeight cfg v tbH),
          Event.drawText 10 10, Event.drawText tbW 10, Event.drawLogo] ++ pre,
          ?_, ?_, ?_⟩
        · simp [createThumbnail, hsel, hpre]
        · simp [hmem]
        · rw [pastesOf_header_append, hcount, hlen]

/-- C8 witness: a concrete fully successful 2×2 run saves exactly once,
at the very end, after four pastes. -/
theorem C8_save_only_after_full_composite_w :
    (createThumbnail ⟨2, 2, 10, 120, true⟩ ⟨640, 480, 1450, 30, 1⟩ 200 100
        (fun _ => 0) (fun _ => true)).2 = true ∧
      ∃ pre, (createThumbnail ⟨2, 2, 10, 120, true⟩ ⟨640, 480, 1450, 30, 1⟩ 200 100
          (fun _ => 0) (fun _ => true)).1 = pre ++ [Event.savePng] ∧
        Event.savePng ∉ pre ∧ (pastesOf pre).length = 2 * 2 :=
  ⟨by decide,
    (C8_save_only_after_full_composite ⟨2, 2, 10, 120, true⟩
      ⟨640, 480, 1450, 30, 1⟩ 200 100 (fun _ => 0) (fun _ => true)).2 (by decide)⟩

/-- Axis-aligned pixel rectangle: origin `(x, y)`, width `w`, height `h`,
covering pixels with `x ≤ px < x + w` and `y ≤ py < y + h`. -/
structure Rect where
  x : ℕ
  y : ℕ
  w : ℕ
  h : ℕ
  deriving DecidableEq

/-- The two rectangles share no pixel. -/
def Rect.disjointFrom (a b : Rect) : Prop :=
  a.x + a.w ≤ b.x ∨ b.x + b.w ≤ a.x ∨ a.y + a.h ≤ b.y ∨ b.y + b.h ≤ a.y

instance (a b : Rect) : Decidable (a.disjointFrom b) :=
  inferInstanceAs (Decidable (_ ≤ _ ∨ _ ≤ _ ∨ _ ≤ _ ∨ _ ≤ _))

/-- Rectangle `a` lies entirely within rectangle `b`. -/
def Rect.within (a b : Rect) : Prop :=
  b.x ≤ a.x ∧ a.x + a.w ≤ b.x + b.w ∧ b.y ≤ a.y ∧ a.y + a.h ≤ b.y + b.h

instance (a b : Rect) : Decidable (a.within b) :=
  inferInstanceAs (Decidable (_ ≤ _ ∧ _ ≤ _ ∧ _ ≤ _ ∧ _ ≤ _))

/-- Line 93: the logo is drawn scaled to width `int(block_width / 4)`. -/
def logoScaledWidth (cfg : Config) : ℕ := cfg.blockWidth / 4

/-- Line 63: `logo.resize((width, int(logo.size[1] / logo.size[0] * width)))`
— the scaled height keeps the logo's aspect, as the floor of the exact
ratio (the Python expression computes it in floating point). -/
def logoScaledHeight (cfg : Config) (logoW logoH : ℕ) : ℕ :=
  logoH * logoScaledWidth cfg / logoW

/-- Line 67: `image.paste(logo, box=(image.size[0] - logo.size[0], 0))`
— the pixel rectangle the logo paste may modify, anchored at the
canvas's top-right corner. -/
def logoRect (cfg : Config) (logoW logoH : ℕ) : Rect :=
  ⟨canvasWidth cfg - logoScaledWidth cfg, 0, logoScaledWidth cfg,
    logoScaledHeight cfg logoW logoH⟩

/-- The header band of the canvas: full width, from the top down to the
grid's y-origin `textbox_height`. -/
def headerRect (cfg : Config) (textboxHeight : ℕ) : Rect :=
  ⟨0, 0, canvasWidth cfg, textboxHeight⟩

/-- The pixel rectangle of grid cell `idx` (lines 101–105). -/
def cellRect (cfg : Config) (v : VideoStream) (textboxHeight idx : ℕ) : Rect :=
  ⟨pasteX cfg idx, pasteY cfg v textboxHeight idx, cfg.blockWidth,
    blockHeight cfg v⟩

/-- C9 counterexample: a 10×1000 logo at block width 400 scales to
100×10000, so its paste rectangle leaves a 100-pixel header band and
overlaps grid cell 1 of a 2×2 grid: logo drawing is not confined to the
header/top area, and drawn after the frames it would overwrite cell
pixels. -/
theorem C9_tall_logo_escapes_header :
    ¬ (logoRect ⟨2, 2, 10, 400, false⟩ 10 1000).within
        (headerRect ⟨2, 2, 10, 400, false⟩ 100) ∧
    ¬ (logoRect ⟨2, 2, 10, 400, false⟩ 10 1000).disjointFrom
        (cellRect ⟨2, 2, 10, 400, false⟩ ⟨400, 300, 100000, 30, 1⟩ 100 1) := by
  decide

/-- C9 amended: provided the scaled logo height does not exceed the
measured header height, the logo's paste rectangle lies within the
header band and is disjoint from every grid cell rectangle (the cell
coordinates are defined independently of the logo, so placement is
unaffected in any drawing order). -/
theorem C9_logo_confined_to_header (cfg : Config) (v : VideoStream)
    (tbH logoW logoH : ℕ) (hcol : 1 ≤ cfg.col)
    (hh : logoScaledHeight cfg logoW logoH ≤ tbH) :
    (logoRect cfg logoW logoH).within (headerRect cfg tbH) ∧
    ∀ idx, (logoRect cfg logoW logoH).disjointFrom (cellRect cfg v tbH idx) := by
  have hsw : logoScaledWidth cfg ≤ canvasWidth cfg := by
    calc logoScaledWidth cfg ≤ cfg.blockWidth := Nat.div_le_self _ _
    _ ≤ cfg.blockWidth + cfg.padding := Nat.le_add_right _ _
    _ ≤ (cfg.blockWidth + cfg.padding) * cfg.col :=
        Nat.le_mul_of_pos_right _ hcol
    _ ≤ canvasWidth cfg := Nat.le_add_right _ _
  constructor
  · simp only [Rect.within, logoRect, headerRect]
    omega
  · intro idx
    refine Or.inr (Or.inr (Or.inl ?_))
    show 0 + logoScaledHeight cfg logoW logoH ≤ pasteY cfg v tbH idx
    rw [Nat.zero_add, pasteY]
    exact le_trans hh (Nat.le_add_right tbH _)

/-- C9 amended-claim witness: a 10×10 logo at block width 400 scales to
100×100, which fits a 100-pixel header and avoids cell 0. -/
theorem C9_logo_confined_to_header_w :
    logoScaledHeight ⟨2, 2, 10, 400, false⟩ 10 10 ≤ 100 ∧
      (logoRect ⟨2, 2, 10, 400, false⟩ 10 10).within
        (headerRect ⟨2, 2, 10, 400, false⟩ 100) ∧
      (logoRect ⟨2, 2, 10, 400, false⟩ 10 10).disjointFrom
        (cellRect ⟨2, 2, 10, 400, false⟩ ⟨400, 300, 100000, 30, 1⟩ 100 0) :=
  ⟨by decide,
    (C9_logo_confined_to_header ⟨2, 2, 10, 400, false⟩
      ⟨400, 300, 100000, 30, 1⟩ 100 10 10 (by decide) (by decide)).1,
    (C9_logo_confined_to_header ⟨2, 2, 10, 400, false⟩
      ⟨400, 300, 100000, 30, 1⟩ 100 10 10 (by decide) (by decide)).2 0⟩

/-- Zero-padded two-digit formatting, Python's `{x:02}` (values of 100
or more keep all their digits). -/
def pad2 (n : ℕ) : String :=
  if n < 10 then "0" ++ toString n else toString n

/-- Hundredths of the exact nonnegative rational `num / den`, rounded
half to even — the rounding Python's `{x:.2f}` applies. -/
def roundHalfEvenCents (num den : ℕ) : ℕ :=
  let q := num * 100 / den
  let r := num * 100 % den
  if 2 * r < den then q
  else if den < 2 * r then q + 1
  else if q % 2 = 0 then q else q + 1

/-- Python's `{num / den:.2f}`: two decimal places. -/
def fmt2 (num den : ℕ) : String :=
  let cents := roundHalfEvenCents num den
  toString (cents / 100) ++ "." ++ pad2 (cents % 100)

/-- Python's `os.path.basename` on a slash-separated path. -/
def basename (s : String) : String :=
  (s.splitOn "/").getLastD ""

/-- One step of Python's `str.title()`: an alphabetic character is
uppercased when the previous character was not alphabetic and lowercased
otherwise. -/
def titleAux : Bool → List Char → List Char
  | _, [] => []
  | prev, c :: cs =>
      let c2 := if c.isAlpha then (if prev then c.toLower else c.toUpper) else c
      c2 :: titleAux c.isAlpha cs

/-- Python's `str.title()`. -/
def pyTitle (s : String) : String :=
  ⟨titleAux false s.data⟩

/-- The container and stream facts `get_metadata` (lines 26–50) reads:
container byte size and microsecond duration, the first video stream's
codec name, profile, bit rate and average rate, the first audio
stream's codec name, profile, bit rate, sample rate, channel count and
optional language tag. -/
structure ContainerInfo where
  filename : String
  size : ℕ
  duration : ℕ
  videoCodecName : String
  videoProfile : String
  videoBitRate : ℕ
  rateNum : ℕ
  rateDen : ℕ
  width : ℕ
  height : ℕ
  audioCodecName : String
  audioProfile : String
  audioBitRate : ℕ
  audioSampleRate : ℕ
  audioChannels : ℕ
  audioLanguage : Option String

/-- Lines 26–50, `get_metadata`: the seven-entry ordered Metadata Record
of label/value string pairs.  `duration` is first converted from
microseconds to whole seconds (line 27); bit rates are divided by 1000;
the audio language defaults to the string und and is title-cased. -/
def getMetadata (c : ContainerInfo) (comment : String) : List (String × String) :=
  let duration := c.duration / 1000000
  let videoFrame := fmt2 c.rateNum c.rateDen
  [("File Name", ": " ++ basename c.filename),
   ("File Size", ": " ++ fmt2 c.size (1024 * 1024) ++ " MB"),
   ("Resolution", ": " ++ toString c.width ++ "x" ++ toString c.height ++
     " / " ++ videoFrame ++ " fps"),
   ("Duration", ": " ++ pad2 (duration / 3600) ++ ":" ++
     pad2 (duration % 3600 / 60) ++ ":" ++ pad2 (duration % 60)),
   ("Video", ": " ++ c.videoCodecName.toUpper ++ " (" ++ c.videoProfile ++
     ") :: " ++ toString (c.videoBitRate / 1000) ++ " kb/s, " ++
     videoFrame ++ " fps"),
   ("Audio", ": " ++ c.audioCodecName.toUpper ++ " (" ++ c.audioProfile ++
     ") :: " ++ toString (c.audioBitRate / 1000) ++ " kbps, " ++
     toString c.audioSampleRate ++ " Hz, " ++ toString c.audioChannels ++
     " channels :: " ++ pyTitle (c.audioLanguage.getD "und")),
   ("Comment", ": " ++ comment)]

/-- C10: the Metadata Record has exactly seven entries and every value
string begins with the two-character separator colon-space, for any
container facts and any comment. -/
theorem C10_values_carry_separator (c : ContainerInfo) (comment : String) :
    (getMetadata c comment).length = 7 ∧
      ∀ p ∈ getMetadata c comment, ∃ rest : String, p.2 = ": " ++ rest := by
  refine ⟨rfl, fun p hp => ?_⟩
  simp only [getMetadata, List.mem_cons, List.not_mem_nil, or_false] at hp
  rcases hp with h | h | h | h | h | h | h <;> subst h <;> exact ⟨_, rfl⟩

/-- C10 witness at a concrete container and comment, for the Comment
entry. -/
theorem C10_values_carry_separator_w :
    ("Comment", ": hello") ∈
      getMetadata ⟨"clips/a.mp4", 3145728, 12000000, "h264", "High", 2500000,
        30, 1, 640, 480, "aac", "LC", 128000, 44100, 2, none⟩ "hello" ∧
    ∃ rest : String, (("Comment", ": hello") : String × String).2 = ": " ++ rest :=
  ⟨by decide,
    (C10_values_carry_separator ⟨"clips/a.mp4", 3145728, 12000000, "h264", "High",
      2500000, 30, 1, 640, 480, "aac", "LC", 128000, 44100, 2, none⟩ "hello").2
      ("Comment", ": hello") (by decide)⟩

end Thumbnail
